import Mathlib

/-!
Verification of the client-side compositing core of the content-studio app:
the caption compositor (`mergeTextAndImage` in src/utils/fileUtils.ts), the
caption selection logic (`PostCard.tsx`, `App.tsx`) and the raster touch-up
canvas (`ComicEditor.tsx`).

Conventions of the shallow embedding:
* JavaScript numbers are modelled as exact rationals (`ℚ`); `Math.round`,
  which in JS is `fun x => floor (x + 0.5)`, is `jsRound`.
* JavaScript string operations used by the code are embedded over `String`:
  `jsSplit` is `String.prototype.split` with a one-character separator and
  `jsTrim` is `String.prototype.trim` (drop whitespace at both ends).
* The canvas 2D context's `measureText` is an explicit measurement
  environment (`MeasureEnv`), a function from a font specification and a
  string to a width, since measured widths depend on the host font engine.
* Drawing is modelled as the ordered display list (`DrawOp`) of the drawing
  commands the code issues; two runs producing the same display list on the
  same rasterizer produce pixel-identical surfaces.
* Asynchronous image decoding is an explicit `decode` parameter returning
  `Option` dimensions; `none` models a decode (load) failure.
-/

namespace ContentStudio

/-- The three-field structured caption (`StructuredText` in src/types). -/
structure StructuredText where
  tag : String
  headline : String
  cta : String
  deriving DecidableEq

/-- A canvas font specification: CSS weight and pixel size, as set by
`ctx.font` assignments in `mergeTextAndImage`. -/
structure FontSpec where
  weight : ℕ
  size : ℚ
  deriving DecidableEq

/-- The text-measurement environment: `ctx.measureText(s).width` under a
given font. The compositor is parametrized by it. -/
abbrev MeasureEnv : Type := FontSpec → String → ℚ

/-- JS `Math.round`: floor of `x + 0.5`. -/
def jsRound (q : ℚ) : ℤ := ⌊q + 1 / 2⌋

/-- JS whitespace test for the characters relevant to `String.prototype.trim`. -/
def jsSpace (c : Char) : Bool := c == ' ' || c == '\t' || c == '\n' || c == '\r'

/-- Worker for `jsSplit`: splits the remaining characters at each separator,
accumulating the current chunk in reverse. -/
def jsSplitGo (sep : Char) : List Char → List Char → List String
  | [], cur => [String.mk cur.reverse]
  | c :: cs, cur =>
      if c = sep then String.mk cur.reverse :: jsSplitGo sep cs []
      else jsSplitGo sep cs (c :: cur)

/-- JS `s.split(sep)` for a one-character separator: in particular
`jsSplit ' ' "" = [""]`, exactly as in JavaScript. -/
def jsSplit (sep : Char) (s : String) : List String := jsSplitGo sep s.data []

/-- Drop trailing JS whitespace from a character list. -/
def trimEndData (l : List Char) : List Char := (l.reverse.dropWhile jsSpace).reverse

/-- JS `s.trim()`: drop whitespace at both ends. -/
def jsTrim (s : String) : String := String.mk ((trimEndData s.data).dropWhile jsSpace)

/-- The loop of `wrapText` (src/utils/fileUtils.ts lines 54-71): `line` is the
accumulated current line (each placed word carries a trailing space), `n` the
index of the next word, `lines` the closed lines. A line is closed when the
measured test line exceeds `maxW` and at least one word has been placed
(`n > 0`). -/
def wrapGo (measure : String → ℚ) (maxW : ℚ) :
    List String → ℕ → String → List String → List String
  | [], _, line, lines => lines ++ [jsTrim line]
  | w :: ws, n, line, lines =>
      if maxW < measure ((line ++ w) ++ (" ")) ∧ 0 < n then
        wrapGo measure maxW ws (n + 1) (w ++ (" ")) (lines ++ [jsTrim line])
      else
        wrapGo measure maxW ws (n + 1) ((line ++ w) ++ (" ")) lines

/-- `wrapText` from src/utils/fileUtils.ts: split the text on single spaces
and fold the words through the greedy line loop. -/
def wrapText (measure : String → ℚ) (textToWrap : String) (maxW : ℚ) : List String :=
  wrapGo measure maxW (jsSplit ' ' textToWrap) 0 ("") []

/-- Modelled from the spec's wording of the word-wrap (for refinement
comparison with `wrapGo`): accumulate words into the current line; when
adding the next word would exceed `maxW` and the current line is nonempty,
close the current line and start a new one, so a single overlong word is
never split. -/
def greedyGo (measure : String → ℚ) (maxW : ℚ) :
    List String → String → List String → List String
  | [], line, lines => lines ++ [jsTrim line]
  | w :: ws, line, lines =>
      if maxW < measure ((line ++ w) ++ (" ")) ∧ line ≠ ("") then
        greedyGo measure maxW ws (w ++ (" ")) (lines ++ [jsTrim line])
      else
        greedyGo measure maxW ws ((line ++ w) ++ (" ")) lines

/-- Modelled from the spec's wording: greedy word wrap started from an empty
current line. -/
def greedyWrapSpec (measure : String → ℚ) (maxW : ℚ) (words : List String) : List String :=
  greedyGo measure maxW words ("") []

/-- The line obtained by appending every word of `ws` (each with its trailing
space, as the code builds test lines) to `line`. -/
def accLine : String → List String → String
  | line, [] => line
  | line, w :: ws => accLine ((line ++ w) ++ (" ")) ws

/-- Every test line built while consuming `ws` from `line` fits in `maxW`. -/
def allFit (measure : String → ℚ) (maxW : ℚ) : String → List String → Prop
  | _, [] => True
  | line, w :: ws =>
      measure ((line ++ w) ++ (" ")) ≤ maxW ∧ allFit measure maxW ((line ++ w) ++ (" ")) ws

/-- `padding = canvas.width * 0.08`. -/
def padding (w : ℚ) : ℚ := w * (8 / 100)

/-- `maxWidth = canvas.width - padding * 2`. -/
def maxTextWidth (w : ℚ) : ℚ := w - padding w * 2

/-- Headline font size: `Math.max(32, Math.round(width / 15))`. -/
def headlineFontSize (w : ℚ) : ℚ := max 32 ((jsRound (w / 15) : ℤ) : ℚ)

/-- Headline line height: `fontSize * 1.1`. -/
def headlineLineHeight (w : ℚ) : ℚ := headlineFontSize w * (11 / 10)

/-- The wrapped headline lines, measured under the 900-weight headline font. -/
def headlineLines (env : MeasureEnv) (w : ℚ) (headline : String) : List String :=
  wrapText (env ⟨900, headlineFontSize w⟩) headline (maxTextWidth w)

/-- `headlineTotalHeight = headlineLines.length * headlineLineHeight`. -/
def headlineTotalHeight (env : MeasureEnv) (w : ℚ) (headline : String) : ℚ :=
  ((headlineLines env w headline).length : ℚ) * headlineLineHeight w

/-- CTA font size: `Math.max(18, Math.round(width / 30))`. -/
def ctaFontSize (w : ℚ) : ℚ := max 18 ((jsRound (w / 30) : ℤ) : ℚ)

/-- CTA pill height: `ctaFontSize * 1.6`. -/
def ctaHeight (w : ℚ) : ℚ := ctaFontSize w * (16 / 10)

/-- CTA pill padding: `ctaFontSize * 0.4`. -/
def ctaBgPadding (w : ℚ) : ℚ := ctaFontSize w * (4 / 10)

/-- `ctaY = canvas.height - padding`. -/
def ctaY (w h : ℚ) : ℚ := h - padding w

/-- Top edge of the CTA pill as drawn:
`roundRect(padding, ctaY - ctaHeight + ctaBgPadding / 2, ...)`. -/
def ctaPillTop (w h : ℚ) : ℚ := ctaY w h - ctaHeight w + ctaBgPadding w / 2

/-- Width of the CTA pill: measured CTA text width plus `ctaBgPadding * 2`. -/
def ctaPillWidth (env : MeasureEnv) (w : ℚ) (cta : String) : ℚ :=
  env ⟨700, ctaFontSize w⟩ cta + ctaBgPadding w * 2

/-- Bottom edge of the CTA pill: its top plus its height. -/
def ctaPillBottom (w h : ℚ) : ℚ := ctaPillTop w h + ctaHeight w

/-- Headline baseline anchor: `ctaY - ctaHeight - padding * 0.5`. -/
def headlineY (w h : ℚ) : ℚ := ctaY w h - ctaHeight w - padding w * (1 / 2)

/-- Tag anchor: `headlineY - headlineTotalHeight - padding * 0.5`. -/
def tagY (env : MeasureEnv) (w h : ℚ) (headline : String) : ℚ :=
  headlineY w h - headlineTotalHeight env w headline - padding w * (1 / 2)

/-- Tag font size: `Math.max(16, Math.round(width / 35))`. -/
def tagFontSize (w : ℚ) : ℚ := max 16 ((jsRound (w / 35) : ℤ) : ℚ)

/-- Tag pill height: `tagFontSize * 1.8`. -/
def tagHeight (w : ℚ) : ℚ := tagFontSize w * (18 / 10)

/-- Tag pill width: measured tag text width plus `tagFontSize * 1.5`. -/
def tagPillWidth (env : MeasureEnv) (w : ℚ) (tag : String) : ℚ :=
  env ⟨600, tagFontSize w⟩ tag + tagFontSize w * (15 / 10)

/-- One drawing command issued by the compositor, in issue order. -/
inductive DrawOp where
  /-- `ctx.drawImage(image, 0, 0)` of the decoded base image. -/
  | image (w h : ℚ)
  /-- The legibility gradient fill over the whole canvas, with the linear
  gradient running from `gy0` (transparent) to `gy1` (0.8 black). -/
  | gradientFill (x y w h gy0 gy1 : ℚ)
  /-- `ctx.roundRect` + `ctx.fill` of a pill. -/
  | roundRectFill (x y w h radius : ℚ) (color : String)
  /-- `ctx.fillText` with the active font weight and size. -/
  | fillText (s : String) (x y : ℚ) (weight : ℕ) (size : ℚ) (color : String)
  deriving DecidableEq

/-- The ordered display list drawn by `mergeTextAndImage` after a successful
decode of a `w × h` image (src/utils/fileUtils.ts lines 38-127). -/
def render (env : MeasureEnv) (w h : ℚ) (t : StructuredText) : List DrawOp :=
  DrawOp.image w h ::
  DrawOp.gradientFill 0 0 w h (h * (4 / 10)) h ::
  DrawOp.roundRectFill (padding w) (ctaPillTop w h) (ctaPillWidth env w t.cta)
    (ctaHeight w) 8 ("#DC2626") ::
  DrawOp.fillText t.cta (padding w + ctaBgPadding w)
    (ctaY w h - ctaHeight w / 2 + ctaBgPadding w / 2) 700 (ctaFontSize w) ("white") ::
  (((headlineLines env w t.headline).enum.map (fun pr =>
      DrawOp.fillText pr.2 (padding w)
        (headlineY w h -
          ((((headlineLines env w t.headline).length - 1 - pr.1 : ℕ) : ℚ) *
            headlineLineHeight w))
        900 (headlineFontSize w) ("white"))) ++
    [DrawOp.roundRectFill (padding w) (tagY env w h t.headline - tagHeight w)
       (tagPillWidth env w t.tag) (tagHeight w) 8 ("#F97316"),
     DrawOp.fillText t.tag (padding w + tagFontSize w * (3 / 4))
       (tagY env w h t.headline - tagHeight w / 2) 600 (tagFontSize w) ("white")])

/-- The failure modes of `mergeTextAndImage`: the canvas context is
unavailable, or the image bytes do not decode (`image.onerror`). -/
inductive ComposeError where
  | contextError
  | decodeError
  deriving DecidableEq

/-- Result of `mergeTextAndImage`: either the composed surface (its pixel
size and display list, serialized to PNG by `toDataURL`) or a rejection. -/
inductive ComposeResult where
  | ok (width height : ℚ) (ops : List DrawOp)
  | error (e : ComposeError)
  deriving DecidableEq

/-- `mergeTextAndImage` from src/utils/fileUtils.ts: reject if no 2D context;
reject with a decode error if the data URL does not decode under the declared
mime type; otherwise draw the full caption overlay and resolve. -/
def mergeTextAndImage (env : MeasureEnv) (ctxOk : Bool)
    (decode : String → String → Option (ℚ × ℚ))
    (base64Image mimeType : String) (text : StructuredText) : ComposeResult :=
  if ctxOk = false then ComposeResult.error ComposeError.contextError
  else
    match decode mimeType base64Image with
    | none => ComposeResult.error ComposeError.decodeError
    | some (w, h) => ComposeResult.ok w h (render env w h text)

/-- A `compose` call as observed by the ambient program state: the code
allocates a fresh local canvas per call and touches no state outside it, so
the call returns its result and leaves any ambient state `σ` unchanged. -/
def composeCall {S : Type} (σ : S) (env : MeasureEnv) (ctxOk : Bool)
    (decode : String → String → Option (ℚ × ℚ))
    (base64Image mimeType : String) (text : StructuredText) : ComposeResult × S :=
  (mergeTextAndImage env ctxOk decode base64Image mimeType text, σ)

/-- A post as consumed by `PostCard` (src/types): raw image bytes, mime type,
caption options and the active caption index. -/
structure Post where
  id : String
  image : String
  imageMimeType : String
  texts : List StructuredText
  activeTextIndex : ℕ
  deriving DecidableEq

/-- `PostCard.tsx` line 20: `post.texts.length > 0 ?
post.texts[post.activeTextIndex] : null`. An out-of-bounds JS index yields
`undefined`; both `null` and `undefined` are `none` here since the only use
is the falsiness test in `handleDownload`. -/
def activeText (p : Post) : Option StructuredText :=
  if 0 < p.texts.length then p.texts.get? p.activeTextIndex else none

/-- The data URL built for the raw (caption-free) download. -/
def postDataUrl (p : Post) : String :=
  ("data:") ++ p.imageMimeType ++ (";base64,") ++ p.image

/-- The download file name: `genius-post-` + first 8 chars of the id + `.png`. -/
def postFileName (p : Post) : String :=
  (("genius-post-") ++ p.id.take 8) ++ (".png")

/-- What `handleDownload` does: download the raw image directly, or run the
compositor on the active caption and download (or alert on) its result. -/
inductive DownloadOutcome where
  | raw (dataUrl fileName : String)
  | merged (r : ComposeResult) (fileName : String)
  deriving DecidableEq

/-- `handleDownload` from `PostCard.tsx` lines 35-50: with no active caption
the raw image is downloaded; otherwise the compositor runs on the active
caption. -/
def handleDownload (env : MeasureEnv) (ctxOk : Bool)
    (decode : String → String → Option (ℚ × ℚ)) (p : Post) : DownloadOutcome :=
  match activeText p with
  | none => DownloadOutcome.raw (postDataUrl p) (postFileName p)
  | some t =>
      DownloadOutcome.merged
        (mergeTextAndImage env ctxOk decode p.image p.imageMimeType t)
        (postFileName p)

/-- `handleCaptionChange` from `App.tsx` lines 101-107: replace only the
`activeTextIndex` field. -/
def handleCaptionChange (p : Post) (newIndex : ℕ) : Post :=
  { p with activeTextIndex := newIndex }

/-- `handleCycleCaption` from `PostCard.tsx` lines 52-55:
`newIndex = (activeTextIndex + 1) % texts.length`. -/
def handleCycleCaption (p : Post) : Post :=
  handleCaptionChange p ((p.activeTextIndex + 1) % p.texts.length)

/-- Drawing tool of the touch-up canvas. -/
inductive Tool where
  | brush
  | eraser
  deriving DecidableEq

/-- `ctx.globalCompositeOperation` values used by the editor. -/
inductive CompositeOp where
  | sourceOver
  | destinationOut
  deriving DecidableEq

/-- One line segment stroked into the drawing canvas by `draw`, with the
context configuration in effect when it was stroked. -/
structure Segment where
  p1 : ℚ × ℚ
  p2 : ℚ × ℚ
  width : ℚ
  op : CompositeOp
  style : String
  deriving DecidableEq

/-- The state of `ComicEditor`: the React state (`isDrawing`, `tool`,
`brushSize`, `brushColor`), the `lastPos` ref, the drawing context's
persistent configuration (`compositeOp`, `strokeStyle`), the drawing
canvas content (`buffer`), the canvas dimensions, and the background
data URL shown underneath via the container's CSS background. -/
structure EditorState where
  isDrawing : Bool
  tool : Tool
  brushSize : ℚ
  brushColor : String
  lastPos : ℚ × ℚ
  compositeOp : CompositeOp
  strokeStyle : String
  buffer : List Segment
  canvasW : ℚ
  canvasH : ℚ
  imageDataUrl : String
  deriving DecidableEq

/-- The editor events: canvas pointer events and toolbar changes. -/
inductive EditorEvent where
  | mouseDown (p : ℚ × ℚ)
  | mouseMove (p : ℚ × ℚ)
  | mouseUp
  | mouseLeave
  | setTool (t : Tool)
  | setColor (c : String)
  | setSize (n : ℚ)
  deriving DecidableEq

/-- `startDrawing` (`ComicEditor.tsx` lines 68-72): record the position and
set the drawing flag. -/
def startDrawing (s : EditorState) (p : ℚ × ℚ) : EditorState :=
  { s with lastPos := p, isDrawing := true }

/-- `draw` (`ComicEditor.tsx` lines 74-100): when a stroke is active, set the
composite mode from the tool (brush also sets the stroke style; the eraser
leaves the style as is), stroke a segment from `lastPos` to the new position
into the drawing canvas, and advance `lastPos`. -/
def draw (s : EditorState) (p : ℚ × ℚ) : EditorState :=
  if s.isDrawing then
    match s.tool with
    | Tool.brush =>
        { s with compositeOp := CompositeOp.sourceOver, strokeStyle := s.brushColor,
                 buffer := s.buffer ++
                   [⟨s.lastPos, p, s.brushSize, CompositeOp.sourceOver, s.brushColor⟩],
                 lastPos := p }
    | Tool.eraser =>
        { s with compositeOp := CompositeOp.destinationOut,
                 buffer := s.buffer ++
                   [⟨s.lastPos, p, s.brushSize, CompositeOp.destinationOut, s.strokeStyle⟩],
                 lastPos := p }
  else s

/-- `stopDrawing` (`ComicEditor.tsx` lines 102-111): if a stroke is active,
reset the composite operation to source-over and clear the drawing flag. -/
def stopDrawing (s : EditorState) : EditorState :=
  if s.isDrawing then
    { s with compositeOp := CompositeOp.sourceOver, isDrawing := false }
  else s

/-- Dispatch of the editor's event handlers: `onMouseDown`, `onMouseMove`,
`onMouseUp`, `onMouseLeave` and the toolbar `onChange` handlers (the color
input is disabled while the eraser is selected). -/
def editorStep (s : EditorState) : EditorEvent → EditorState
  | EditorEvent.mouseDown p => startDrawing s p
  | EditorEvent.mouseMove p => draw s p
  | EditorEvent.mouseUp => stopDrawing s
  | EditorEvent.mouseLeave => stopDrawing s
  | EditorEvent.setTool t => { s with tool := t }
  | EditorEvent.setColor c => if s.tool = Tool.eraser then s else { s with brushColor := c }
  | EditorEvent.setSize n => { s with brushSize := n }

/-- Run a sequence of editor events. -/
def runEditor (s : EditorState) (evs : List EditorEvent) : EditorState :=
  evs.foldl editorStep s

/-- The display-size computation of `image.onload` in `ComicEditor.tsx`
lines 28-40: clamp to `maxW` first (rescaling the height by the original
aspect), then clamp the (possibly updated) height to `maxH` (rescaling the
width by the original aspect). -/
def scaleToFit (maxW maxH w h : ℚ) : ℚ × ℚ :=
  let r := w / h
  let w1 := if maxW < w then maxW else w
  let h1 := if maxW < w then maxW / r else h
  if maxH < h1 then (maxH * r, maxH) else (w1, h1)

/-- The editor state after `image.onload` for a `w × h` background in a
viewport of `innerW × innerH`: scaled canvas, default tool configuration,
drawing canvas cleared transparent (`clearRect`), background kept as the
container's CSS background. -/
def openInitState (innerW innerH w h : ℚ) (url : String) : EditorState :=
  { isDrawing := false
    tool := Tool.brush
    brushSize := 10
    brushColor := ("#000000")
    lastPos := (0, 0)
    compositeOp := CompositeOp.sourceOver
    strokeStyle := ("#000000")
    buffer := []
    canvasW := (scaleToFit (innerW * (8 / 10)) (innerH * (7 / 10)) w h).1
    canvasH := (scaleToFit (innerW * (8 / 10)) (innerH * (7 / 10)) w h).2
    imageDataUrl := url }

/-- Outcome of opening the editor on a background image. The `useEffect`
image load sets no `onerror` handler, so a failed decode produces neither a
session nor a surfaced error (`silent`). -/
inductive OpenOutcome where
  | opened (s : EditorState)
  | failed
  | silent
  deriving DecidableEq

/-- The editor's `useEffect` open step (`ComicEditor.tsx` lines 20-58). -/
def comicEditorOpen (decode : String → Option (ℚ × ℚ)) (innerW innerH : ℚ)
    (url : String) : OpenOutcome :=
  match decode url with
  | none => OpenOutcome.silent
  | some (w, h) => OpenOutcome.opened (openInitState innerW innerH w h url)

/-- The flattened save output: the original background drawn first at the
canvas size, then the drawing canvas contents on top. -/
structure FlatImage where
  background : String
  width : ℚ
  height : ℚ
  edits : List Segment
  deriving DecidableEq

/-- Outcome of `handleSave`: output bytes, a surfaced error, or nothing at
all (the callback never runs and no rejection is surfaced). -/
inductive SaveOutcome where
  | saved (out : FlatImage)
  | failed
  | silent
  deriving DecidableEq

/-- `handleSave` from `ComicEditor.tsx` lines 113-137: re-decode the original
data URL; `image.onload` draws the background then the drawing canvas and
invokes `onSave`; no `onerror` handler is attached, so a failed decode
produces `silent` and the editor state is left untouched. -/
def handleSave (decode : String → Option (ℚ × ℚ)) (s : EditorState) :
    SaveOutcome × EditorState :=
  match decode s.imageDataUrl with
  | none => (SaveOutcome.silent, s)
  | some _ => (SaveOutcome.saved ⟨s.imageDataUrl, s.canvasW, s.canvasH, s.buffer⟩, s)

/-- The drawing-state invariant of the touch-up canvas: between strokes the
context composite mode is the default source-over. -/
def editorInv (s : EditorState) : Prop :=
  s.isDrawing = false → s.compositeOp = CompositeOp.sourceOver

/-- JS rounding computed from a bracketing of the argument. -/
theorem jsRound_eq (q : ℚ) (z : ℤ) (h1 : (z : ℚ) ≤ q + 1 / 2)
    (h2 : q + 1 / 2 < (z : ℚ) + 1) : jsRound q = z :=
  Int.floor_eq_iff.mpr ⟨h1, h2⟩

/-- String append is associative. -/
theorem str_append_assoc (a b c : String) : (a ++ b) ++ c = a ++ (b ++ c) := by
  apply String.ext
  simp [String.data_append]

/-- The empty string is a left identity for append. -/
theorem str_empty_append (s : String) : ("") ++ s = s := by
  apply String.ext
  simp [String.data_append]

/-- A string with a space appended is nonempty. -/
theorem str_append_space_ne (s : String) : s ++ (" ") ≠ ("") := by
  intro h
  have h2 := congrArg String.data h
  simp [String.data_append] at h2

/-- `jsTrim` absorbs a trailing space. -/
theorem jsTrim_append_space (s : String) : jsTrim (s ++ (" ")) = jsTrim s := by
  cases s with
  | mk d => simp [jsTrim, trimEndData, String.data_append, jsSpace]

/-- The code's wrap loop refines the spec-worded greedy loop: the index guard
`0 < n` coincides with the guard "the current line is nonempty" under the
loop invariant relating them. -/
theorem wrapGo_eq_greedyGo (measure : String → ℚ) (maxW : ℚ) :
    ∀ (ws : List String) (n : ℕ) (line : String) (lines : List String),
      (0 < n ↔ line ≠ ("")) →
      wrapGo measure maxW ws n line lines = greedyGo measure maxW ws line lines := by
  intro ws
  induction ws with
  | nil => intro n line lines _; rfl
  | cons w ws ih =>
      intro n line lines hinv
      rw [wrapGo, greedyGo]
      by_cases hm : maxW < measure ((line ++ w) ++ (" "))
      · by_cases hn : 0 < n
        · rw [if_pos ⟨hm, hn⟩, if_pos ⟨hm, hinv.mp hn⟩]
          exact ih (n + 1) (w ++ (" ")) (lines ++ [jsTrim line])
            (iff_of_true (Nat.succ_pos n) (str_append_space_ne w))
        · have hline : ¬ line ≠ ("") := fun hc => hn (hinv.mpr hc)
          rw [if_neg (fun hc => hn hc.2), if_neg (fun hc => hline hc.2)]
          exact ih (n + 1) ((line ++ w) ++ (" ")) lines
            (iff_of_true (Nat.succ_pos n) (str_append_space_ne (line ++ w)))
      · rw [if_neg (fun hc => hm hc.1), if_neg (fun hc => hm hc.1)]
        exact ih (n + 1) ((line ++ w) ++ (" ")) lines
          (iff_of_true (Nat.succ_pos n) (str_append_space_ne (line ++ w)))

/-- Under a measure monotone in appended text, a line measures at most any
of its extensions by further words. -/
theorem measure_le_accLine (measure : String → ℚ)
    (hmono : ∀ s t : String, measure s ≤ measure (s ++ t)) :
    ∀ (ws : List String) (line : String), measure line ≤ measure (accLine line ws) := by
  intro ws
  induction ws with
  | nil => intro line; exact le_refl _
  | cons w ws ih =>
      intro line
      rw [accLine]
      calc measure line ≤ measure (line ++ (w ++ (" "))) := hmono line (w ++ (" "))
        _ = measure ((line ++ w) ++ (" ")) := by rw [str_append_assoc]
        _ ≤ measure (accLine ((line ++ w) ++ (" ")) ws) := ih _

/-- If the fully accumulated line fits, every intermediate test line fits. -/
theorem totalFit_allFit (measure : String → ℚ) (maxW : ℚ)
    (hmono : ∀ s t : String, measure s ≤ measure (s ++ t)) :
    ∀ (ws : List String) (line : String),
      measure (accLine line ws) ≤ maxW → allFit measure maxW line ws := by
  intro ws
  induction ws with
  | nil => intro line _; trivial
  | cons w ws ih =>
      intro line h
      rw [accLine] at h
      exact ⟨le_trans (measure_le_accLine measure hmono ws _) h, ih _ h⟩

/-- When every test line fits, the wrap loop closes no line: it emits the
single accumulated line. -/
theorem wrapGo_allFit (measure : String → ℚ) (maxW : ℚ) :
    ∀ (ws : List String) (n : ℕ) (line : String) (lines : List String),
      allFit measure maxW line ws →
      wrapGo measure maxW ws n line lines = lines ++ [jsTrim (accLine line ws)] := by
  intro ws
  induction ws with
  | nil => intro n line lines _; rfl
  | cons w ws ih =>
      intro n line lines hfit
      rw [allFit] at hfit
      rw [wrapGo, if_neg (fun hcon => absurd hfit.1 (not_le.mpr hcon.1)), accLine]
      exact ih (n + 1) _ lines hfit.2

/-- Wrapping the empty headline: `"".split(' ')` is `[""]` in JS, so the loop
runs once with `n = 0` and emits one (empty) line. -/
theorem wrapText_empty (measure : String → ℚ) (maxW : ℚ) :
    wrapText measure ("") maxW = [("")] := by
  rw [wrapText, show jsSplit ' ' ("") = [("")] from rfl, wrapGo,
    if_neg (fun hcon => Nat.lt_irrefl 0 hcon.2), wrapGo]
  rfl

/-- C1: `wrapText` word-wraps greedily. (i) It equals the spec-worded greedy
wrap (accumulate words while the measured test line fits; when adding the
next word would exceed `maxW` and the current line is nonempty, close it and
start a new one). (ii) A headline consisting of a single word whose rendered
width exceeds `maxW` is emitted unsplit as exactly the one line holding it.
(iii) A headline whose words jointly fit (the accumulated line as the code
measures it, with a trailing space per word, is within `maxW`) renders as
exactly one line. The measure is assumed monotone under appending text, as
any real text metric is. -/
theorem wrapText_greedy_correct (measure : String → ℚ) (maxW : ℚ)
    (hmono : ∀ s t : String, measure s ≤ measure (s ++ t)) :
    (∀ headline : String,
        wrapText measure headline maxW
          = greedyWrapSpec measure maxW (jsSplit ' ' headline)) ∧
    (∀ w : String, jsTrim w = w → jsSplit ' ' w = [w] →
        maxW < measure (w ++ (" ")) → wrapText measure w maxW = [w]) ∧
    (∀ headline : String,
        measure (accLine ("") (jsSplit ' ' headline)) ≤ maxW →
        (wrapText measure headline maxW).length = 1) := by
  refine ⟨?_, ?_, ?_⟩
  · intro headline
    exact wrapGo_eq_greedyGo measure maxW (jsSplit ' ' headline) 0 ("") []
      (iff_of_false (Nat.lt_irrefl 0) (fun hcon => hcon rfl))
  · intro w h1 h2 _
    rw [wrapText, h2, wrapGo, if_neg (fun hcon => Nat.lt_irrefl 0 hcon.2), wrapGo,
      str_empty_append, List.nil_append, jsTrim_append_space, h1]
  · intro headline hfit
    rw [wrapText, wrapGo_allFit measure maxW (jsSplit ' ' headline) 0 ("") []
      (totalFit_allFit measure maxW hmono (jsSplit ' ' headline) ("") hfit)]
    rfl

/-- Witness for C1 with the character-count measure: the overlong single word
`abcdefgh` (width 9 against a 6-wide column) stays on one unsplit line, and
the jointly fitting `a b` renders as one line. -/
theorem wrapText_greedy_correct_witness :
    wrapText (fun s => (s.length : ℚ)) ("abcdefgh") 6 = [("abcdefgh")] ∧
    (wrapText (fun s => (s.length : ℚ)) ("a b") 100).length = 1 := by
  have hmono : ∀ s t : String, ((s.length : ℚ)) ≤ (((s ++ t).length : ℚ)) := by
    intro s t
    rw [String.length_append]
    exact_mod_cast Nat.le_add_right s.length t.length
  constructor
  · apply (wrapText_greedy_correct (fun s => (s.length : ℚ)) 6 hmono).2.1 ("abcdefgh")
      (by decide) (by decide)
    rw [show (("abcdefgh") ++ (" ")).length = 9 from rfl]
    norm_num
  · apply (wrapText_greedy_correct (fun s => (s.length : ℚ)) 100 hmono).2.2 ("a b")
    rw [show (accLine ("") (jsSplit ' ' ("a b"))).length = 4 from rfl]
    norm_num

/-- C2 (amended): the CTA is drawn at font weight 700 and size
`max(18, round(width/30))`; its pill is the third drawing command, a rounded
rectangle of corner radius 8, height `1.6 × fontSize`, width equal to the
measured CTA text width plus `2 × 0.4 × fontSize` horizontal padding, drawn
with its top at `(height − padding) − ctaHeight + ctaBgPadding/2`, so its
bottom edge lies at `height − padding + 0.2 × fontSize` (not at
`height − padding`: the rect is shifted down by `ctaBgPadding / 2`). -/
theorem ctaPill_geometry (env : MeasureEnv) (w h : ℚ) (t : StructuredText) :
    (render env w h t).get? 2
      = some (DrawOp.roundRectFill (padding w) (ctaPillTop w h)
          (ctaPillWidth env w t.cta) (ctaHeight w) 8 ("#DC2626")) ∧
    (render env w h t).get? 3
      = some (DrawOp.fillText t.cta (padding w + ctaBgPadding w)
          (ctaY w h - ctaHeight w / 2 + ctaBgPadding w / 2) 700 (ctaFontSize w)
          ("white")) ∧
    ctaFontSize w = max 18 ((jsRound (w / 30) : ℤ) : ℚ) ∧
    ctaHeight w = ctaFontSize w * (16 / 10) ∧
    ctaPillWidth env w t.cta
      = env ⟨700, ctaFontSize w⟩ t.cta + 2 * (ctaFontSize w * (4 / 10)) ∧
    ctaPillBottom w h = (h - padding w) + ctaFontSize w * (1 / 5) := by
  refine ⟨rfl, rfl, rfl, rfl, ?_, ?_⟩
  · rw [ctaPillWidth, ctaBgPadding]; ring
  · rw [ctaPillBottom, ctaPillTop, ctaBgPadding, ctaY]; ring

/-- C2 counterexample: on a 1000 × 1000 canvas the CTA pill's bottom edge is
at 926.6, not at `height − padding = 920`, and the font size is
`round(1000/30) = 33`, not `1000/30`. -/
theorem ctaPill_claim_counterexample :
    ctaPillBottom 1000 1000 ≠ 1000 - padding 1000 ∧
    ctaFontSize 1000 ≠ max 18 ((1000 : ℚ) / 30) := by
  have h33 : jsRound ((1000 : ℚ) / 30) = 33 := jsRound_eq _ 33 (by norm_num) (by norm_num)
  have hfs : ctaFontSize 1000 = 33 := by
    rw [ctaFontSize, show ((1000 : ℚ) / 30) = ((1000 : ℚ) / 30) from rfl, h33]
    norm_num
  constructor
  · rw [ctaPillBottom, ctaPillTop, ctaY, ctaHeight, ctaBgPadding, hfs, padding]
    norm_num
  · rw [hfs]
    rw [show max (18 : ℚ) ((1000 : ℚ) / 30) = 1000 / 30 from max_eq_right (by norm_num)]
    norm_num

/-- C3 (amended): for the empty headline, `wrapText` produces one empty line
(JS `"".split(' ')` is `[""]`), so the headline block contributes exactly one
line height `1.1 × headlineFontSize` to the tag position: the tag anchor sits
at `headlineY − headlineLineHeight − 0.5 × padding`, not merely
`0.5 × padding` above the CTA pill block. -/
theorem emptyHeadline_geometry (env : MeasureEnv) (w h : ℚ) :
    headlineLines env w ("") = [("")] ∧
    headlineTotalHeight env w ("") = headlineLineHeight w ∧
    tagY env w h ("") = headlineY w h - headlineLineHeight w - padding w * (1 / 2) := by
  have h1 : headlineLines env w ("") = [("")] := wrapText_empty _ _
  have h2 : headlineTotalHeight env w ("") = headlineLineHeight w := by
    rw [headlineTotalHeight, h1]
    norm_num
  exact ⟨h1, h2, by rw [tagY, h2]⟩

/-- C3 counterexample: with any measurement environment on a 1000 × 1000
canvas, the empty headline renders one line rather than zero, and the tag
anchor is not at `headlineY − 0.5 × padding` (it is one line height lower). -/
theorem emptyHeadline_claim_counterexample :
    (headlineLines (fun _ _ => 0) 1000 ("")).length ≠ 0 ∧
    tagY (fun _ _ => 0) 1000 1000 ("")
      ≠ headlineY 1000 1000 - padding 1000 * (1 / 2) := by
  have h67 : jsRound ((1000 : ℚ) / 15) = 67 := jsRound_eq _ 67 (by norm_num) (by norm_num)
  constructor
  · rw [headlineLines, wrapText_empty]
    decide
  · rw [tagY, headlineTotalHeight, headlineLines, wrapText_empty]
    have hlh : headlineLineHeight 1000 = 737 / 10 := by
      rw [headlineLineHeight, headlineFontSize, h67]
      rw [show max (32 : ℚ) ((67 : ℤ) : ℚ) = 67 from max_eq_right (by norm_num)]
      norm_num
    have hlen : ((([("")]).length : ℕ) : ℚ) = 1 := by simp
    rw [hlh, hlen]
    intro hcon
    linarith [hcon]

/-- Every editor event preserves the drawing-state invariant: when no stroke
is active the composite mode is source-over. -/
theorem editorStep_inv (s : EditorState) (e : EditorEvent) (h : editorInv s) :
    editorInv (editorStep s e) := by
  cases e <;> cases hb : s.isDrawing <;> cases ht : s.tool <;>
    simp_all [editorInv, editorStep, startDrawing, draw, stopDrawing]

/-- The invariant is preserved by any event sequence. -/
theorem runEditor_inv (evs : List EditorEvent) :
    ∀ s : EditorState, editorInv s → editorInv (runEditor s evs) := by
  induction evs with
  | nil => intro s h; exact h
  | cons e evs ih => intro s h; exact ih (editorStep s e) (editorStep_inv s e h)

/-- After `stopDrawing` no stroke is active. -/
theorem stopDrawing_not_drawing (s : EditorState) : (stopDrawing s).isDrawing = false := by
  cases hb : s.isDrawing <;> simp [stopDrawing, hb]

/-- C4: starting from any editor state satisfying the between-strokes
invariant (as the freshly opened editor does, the canvas context defaulting
to source-over), (i) after any event sequence that leaves no stroke active
the composite mode is source-over, and (ii) after any event sequence
followed by a pointer-up or pointer-leave the composite mode is source-over:
the eraser's destination-out never survives the end of a stroke into the
next stroke's setup. -/
theorem composite_reset_after_stroke (s0 : EditorState) (h0 : editorInv s0) :
    (∀ evs : List EditorEvent, (runEditor s0 evs).isDrawing = false →
        (runEditor s0 evs).compositeOp = CompositeOp.sourceOver) ∧
    (∀ (evs : List EditorEvent) (e : EditorEvent),
        e = EditorEvent.mouseUp ∨ e = EditorEvent.mouseLeave →
        (runEditor s0 (evs ++ [e])).compositeOp = CompositeOp.sourceOver) := by
  constructor
  · intro evs h
    exact runEditor_inv evs s0 h0 h
  · intro evs e he
    have hrun : runEditor s0 (evs ++ [e]) = editorStep (runEditor s0 evs) e := by
      rw [runEditor, List.foldl_append]
      rfl
    have hinv : editorInv (editorStep (runEditor s0 evs) e) :=
      editorStep_inv (runEditor s0 evs) e (runEditor_inv evs s0 h0)
    rw [hrun]
    apply hinv
    rcases he with rfl | rfl
    · exact stopDrawing_not_drawing (runEditor s0 evs)
    · exact stopDrawing_not_drawing (runEditor s0 evs)

/-- Witness for C4: a brush-down, switch to eraser, an eraser segment
(composite mode becomes destination-out), then pointer-up: the composite
mode is back to source-over. -/
theorem composite_reset_after_stroke_witness :
    (runEditor (openInitState 1000 800 500 400 ("bg"))
        ([EditorEvent.mouseDown (1, 1), EditorEvent.setTool Tool.eraser,
          EditorEvent.mouseMove (2, 2)] ++ [EditorEvent.mouseUp])).compositeOp
      = CompositeOp.sourceOver :=
  (composite_reset_after_stroke (openInitState 1000 800 500 400 ("bg"))
      (fun _ => rfl)).2
    [EditorEvent.mouseDown (1, 1), EditorEvent.setTool Tool.eraser,
      EditorEvent.mouseMove (2, 2)]
    EditorEvent.mouseUp (Or.inl rfl)

/-- C5: when the image bytes do not decode under the declared mime type,
`mergeTextAndImage` (with a working canvas context, which the code checks
first) rejects with the decode error and never resolves with any surface. -/
theorem mergeTextAndImage_decode_error (env : MeasureEnv)
    (decode : String → String → Option (ℚ × ℚ)) (img mime : String)
    (t : StructuredText) (hd : decode mime img = none) :
    mergeTextAndImage env true decode img mime t
      = ComposeResult.error ComposeError.decodeError ∧
    ∀ (w h : ℚ) (ops : List DrawOp),
      mergeTextAndImage env true decode img mime t ≠ ComposeResult.ok w h ops := by
  have h1 : mergeTextAndImage env true decode img mime t
      = ComposeResult.error ComposeError.decodeError := by
    simp [mergeTextAndImage, hd]
  refine ⟨h1, fun w h ops hc => ?_⟩
  rw [h1] at hc
  exact ComposeResult.noConfusion hc

/-- Witness for C5 at a concrete always-failing decoder. -/
theorem mergeTextAndImage_decode_error_witness :
    mergeTextAndImage (fun _ _ => 0) true (fun _ _ => none) ("IMG") ("image/png")
        ⟨("T"), ("H"), ("C")⟩
      = ComposeResult.error ComposeError.decodeError :=
  (mergeTextAndImage_decode_error (fun _ _ => 0) (fun _ _ => none) ("IMG")
      ("image/png") ⟨("T"), ("H"), ("C")⟩ rfl).1

/-- The two-clamp display-size computation: result within both bounds, exact
aspect ratio (stated cross-multiplied), and the identity when the image
already fits. -/
theorem scaleToFit_spec (maxW maxH w h : ℚ) (hw : 0 < w) (hh : 0 < h) :
    (scaleToFit maxW maxH w h).1 ≤ maxW ∧
    (scaleToFit maxW maxH w h).2 ≤ maxH ∧
    (scaleToFit maxW maxH w h).1 * h = (scaleToFit maxW maxH w h).2 * w ∧
    (w ≤ maxW → h ≤ maxH → scaleToFit maxW maxH w h = (w, h)) := by
  have hr : 0 < w / h := div_pos hw hh
  have hcancel : w / h * h = w := div_mul_cancel₀ w hh.ne'
  simp only [scaleToFit]
  split_ifs with hmw hmh hmh
  · -- width clamped, then height clamped
    refine ⟨le_of_lt ((lt_div_iff₀ hr).mp hmh), le_refl _, ?_, ?_⟩
    · rw [mul_assoc, hcancel]
    · intro hw2 _
      exact absurd hw2 (not_le.mpr hmw)
  · -- width clamped only
    refine ⟨le_refl _, not_lt.mp hmh, ?_, ?_⟩
    · rw [div_div_eq_mul_div, div_mul_cancel₀ _ hw.ne', mul_comm]
    · intro hw2 _
      exact absurd hw2 (not_le.mpr hmw)
  · -- height clamped only
    refine ⟨?_, le_refl _, ?_, ?_⟩
    · show maxH * (w / h) ≤ maxW
      apply le_of_lt
      calc maxH * (w / h) < h * (w / h) := mul_lt_mul_of_pos_right hmh hr
        _ = w := by rw [mul_comm, hcancel]
        _ ≤ maxW := not_lt.mp hmw
    · rw [mul_assoc, hcancel]
    · intro _ hh2
      exact absurd hmh (not_lt.mpr hh2)
  · -- no clamping
    exact ⟨not_lt.mp hmw, not_lt.mp hmh, mul_comm w h, fun _ _ => rfl⟩

/-- C6: opening the editor on a `w × h` background that decodes computes a
display size at most 80% of the viewport width and 70% of the viewport
height, preserves the aspect ratio exactly, and keeps the native size when
the image already fits both bounds; the drawing canvas is allocated at that
size and cleared transparent, with the background held as the container's
CSS background (a separate surface), not drawn into the drawing canvas. -/
theorem openEditor_scaling (innerW innerH w h : ℚ) (url : String)
    (decode : String → Option (ℚ × ℚ))
    (hw : 0 < w) (hh : 0 < h) (hdec : decode url = some (w, h)) :
    comicEditorOpen decode innerW innerH url
      = OpenOutcome.opened (openInitState innerW innerH w h url) ∧
    (openInitState innerW innerH w h url).canvasW ≤ innerW * (8 / 10) ∧
    (openInitState innerW innerH w h url).canvasH ≤ innerH * (7 / 10) ∧
    (openInitState innerW innerH w h url).canvasW * h
      = (openInitState innerW innerH w h url).canvasH * w ∧
    (w ≤ innerW * (8 / 10) → h ≤ innerH * (7 / 10) →
      (openInitState innerW innerH w h url).canvasW = w ∧
      (openInitState innerW innerH w h url).canvasH = h) ∧
    (openInitState innerW innerH w h url).buffer = [] ∧
    (openInitState innerW innerH w h url).imageDataUrl = url := by
  obtain ⟨hb1, hb2, hb3, hb4⟩ :=
    scaleToFit_spec (innerW * (8 / 10)) (innerH * (7 / 10)) w h hw hh
  refine ⟨by simp [comicEditorOpen, hdec], hb1, hb2, hb3, ?_, rfl, rfl⟩
  intro hw2 hh2
  constructor
  · show (scaleToFit (innerW * (8 / 10)) (innerH * (7 / 10)) w h).1 = w
    rw [hb4 hw2 hh2]
  · show (scaleToFit (innerW * (8 / 10)) (innerH * (7 / 10)) w h).2 = h
    rw [hb4 hw2 hh2]

/-- Witness for C6: a 500 × 400 image in a 1000 × 1000 viewport fits the
800 × 700 bounds and opens at native size. -/
theorem openEditor_scaling_witness :
    comicEditorOpen (fun _ => some (500, 400)) 1000 1000 ("bg")
      = OpenOutcome.opened (openInitState 1000 1000 500 400 ("bg")) :=
  (openEditor_scaling 1000 1000 500 400 ("bg") (fun _ => some (500, 400))
      (by norm_num) (by norm_num) rfl).1

/-- Cycling leaves the texts unchanged. -/
theorem cycle_texts (p : Post) : (handleCycleCaption p).texts = p.texts := rfl

/-- Cycling leaves the image unchanged. -/
theorem cycle_image (p : Post) : (handleCycleCaption p).image = p.image := rfl

/-- Cycling leaves the mime type unchanged. -/
theorem cycle_mime (p : Post) : (handleCycleCaption p).imageMimeType = p.imageMimeType := rfl

/-- Cycling leaves the id unchanged. -/
theorem cycle_id (p : Post) : (handleCycleCaption p).id = p.id := rfl

/-- The new index after one cycle step. -/
theorem cycle_index (p : Post) :
    (handleCycleCaption p).activeTextIndex
      = (p.activeTextIndex + 1) % p.texts.length := rfl

/-- Iterated cycling touches no field but the index. -/
theorem cycle_iter_fields (p : Post) (k : ℕ) :
    (handleCycleCaption^[k] p).texts = p.texts ∧
    (handleCycleCaption^[k] p).image = p.image ∧
    (handleCycleCaption^[k] p).imageMimeType = p.imageMimeType ∧
    (handleCycleCaption^[k] p).id = p.id := by
  induction k with
  | zero => exact ⟨rfl, rfl, rfl, rfl⟩
  | succ k ih =>
      rw [Function.iterate_succ_apply', cycle_texts, cycle_image, cycle_mime, cycle_id]
      exact ih

/-- Iterated cycling advances the index mod the number of captions. -/
theorem cycle_iter_index (p : Post) (hlt : p.activeTextIndex < p.texts.length) (k : ℕ) :
    (handleCycleCaption^[k] p).activeTextIndex
      = (p.activeTextIndex + k) % p.texts.length := by
  induction k with
  | zero =>
      simp [Nat.mod_eq_of_lt hlt]
  | succ k ih =>
      rw [Function.iterate_succ_apply', cycle_index, (cycle_iter_fields p k).1, ih,
        Nat.mod_add_mod, Nat.add_assoc]

/-- Two posts with equal fields are equal. -/
theorem post_eq_of_fields (p q : Post) (h1 : p.id = q.id) (h2 : p.image = q.image)
    (h3 : p.imageMimeType = q.imageMimeType) (h4 : p.texts = q.texts)
    (h5 : p.activeTextIndex = q.activeTextIndex) : p = q := by
  cases p
  cases q
  simp_all

/-- C7: for a post with nonempty texts and an in-bounds active index, every
cycle step changes only `activeTextIndex` and keeps it in bounds, and cycling
through all of `texts` returns exactly the original post, so composing (the
download handler) afterwards equals composing at the original index. -/
theorem cycleCaption_roundtrip (p : Post) (hne : p.texts ≠ [])
    (hlt : p.activeTextIndex < p.texts.length) :
    (∀ k : ℕ, (handleCycleCaption^[k] p).texts = p.texts ∧
        (handleCycleCaption^[k] p).image = p.image ∧
        (handleCycleCaption^[k] p).imageMimeType = p.imageMimeType ∧
        (handleCycleCaption^[k] p).activeTextIndex < p.texts.length) ∧
    handleCycleCaption^[p.texts.length] p = p ∧
    (∀ (env : MeasureEnv) (ctxOk : Bool)
        (decode : String → String → Option (ℚ × ℚ)),
        handleDownload env ctxOk decode (handleCycleCaption^[p.texts.length] p)
          = handleDownload env ctxOk decode p) := by
  have hn : 0 < p.texts.length := List.length_pos.mpr hne
  have hroundtrip : handleCycleCaption^[p.texts.length] p = p := by
    have hf := cycle_iter_fields p p.texts.length
    have hidx : (handleCycleCaption^[p.texts.length] p).activeTextIndex
        = p.activeTextIndex := by
      rw [cycle_iter_index p hlt, Nat.add_mod_right, Nat.mod_eq_of_lt hlt]
    exact post_eq_of_fields _ _ hf.2.2.2 hf.2.1 hf.2.2.1 hf.1 hidx
  refine ⟨fun k => ⟨(cycle_iter_fields p k).1, (cycle_iter_fields p k).2.1,
    (cycle_iter_fields p k).2.2.1, ?_⟩, hroundtrip,
    fun env ctxOk decode => by rw [hroundtrip]⟩
  rw [cycle_iter_index p hlt]
  exact Nat.mod_lt _ hn

/-- Witness for C7 on a two-caption post with active index 1. -/
theorem cycleCaption_roundtrip_witness :
    handleCycleCaption^[2]
        ⟨("p1"), ("IMG"), ("image/png"),
          [⟨("A"), ("B"), ("C")⟩, ⟨("D"), ("E"), ("F")⟩], 1⟩
      = ⟨("p1"), ("IMG"), ("image/png"),
          [⟨("A"), ("B"), ("C")⟩, ⟨("D"), ("E"), ("F")⟩], 1⟩ :=
  (cycleCaption_roundtrip
      ⟨("p1"), ("IMG"), ("image/png"),
        [⟨("A"), ("B"), ("C")⟩, ⟨("D"), ("E"), ("F")⟩], 1⟩
      (by decide) (by decide)).2.1

/-- C8 (amended): with nonempty texts and an out-of-bounds active index, the
JS lookup `texts[activeTextIndex]` is `undefined`, the falsiness guard in
`handleDownload` treats it as "no active caption", and the raw image is
downloaded without compositing and without any error: no
`InvalidCaptionState` failure exists in the code. -/
theorem handleDownload_outOfBounds_raw (env : MeasureEnv) (ctxOk : Bool)
    (decode : String → String → Option (ℚ × ℚ)) (p : Post)
    (hne : p.texts ≠ []) (hoob : p.texts.length ≤ p.activeTextIndex) :
    handleDownload env ctxOk decode p
      = DownloadOutcome.raw (postDataUrl p) (postFileName p) ∧
    ∀ (r : ComposeResult) (fn : String),
      handleDownload env ctxOk decode p ≠ DownloadOutcome.merged r fn := by
  have hat : activeText p = none := by
    rw [activeText, if_pos (List.length_pos.mpr hne)]
    exact List.get?_eq_none.mpr hoob
  have h1 : handleDownload env ctxOk decode p
      = DownloadOutcome.raw (postDataUrl p) (postFileName p) := by
    simp [handleDownload, hat]
  refine ⟨h1, fun r fn hc => ?_⟩
  rw [h1] at hc
  exact DownloadOutcome.noConfusion hc

/-- Witness for C8's amended statement at a concrete out-of-bounds post. -/
theorem handleDownload_outOfBounds_raw_witness :
    handleDownload (fun _ _ => 0) true (fun _ _ => none)
        ⟨("post5678"), ("IMG"), ("image/png"), [⟨("A"), ("B"), ("C")⟩], 1⟩
      = DownloadOutcome.raw
          (postDataUrl ⟨("post5678"), ("IMG"), ("image/png"),
            [⟨("A"), ("B"), ("C")⟩], 1⟩)
          (postFileName ⟨("post5678"), ("IMG"), ("image/png"),
            [⟨("A"), ("B"), ("C")⟩], 1⟩) :=
  (handleDownload_outOfBounds_raw (fun _ _ => 0) true (fun _ _ => none)
      ⟨("post5678"), ("IMG"), ("image/png"), [⟨("A"), ("B"), ("C")⟩], 1⟩
      (by decide) (by decide)).1

/-- C8 counterexample: at the concrete post with one caption and active index
1, download does not fail at all: it resolves to the raw, caption-free
download, contradicting the claimed `InvalidCaptionState` failure. -/
theorem handleDownload_invalidCaptionState_counterexample :
    handleDownload (fun _ _ => 0) true (fun _ _ => none)
        ⟨("p"), ("IMG"), ("image/png"), [⟨("A"), ("B"), ("C")⟩], 1⟩
      = DownloadOutcome.raw (("data:image/png;base64,IMG")) (("genius-post-p.png")) ∧
    ∀ (r : ComposeResult) (fn : String),
      handleDownload (fun _ _ => 0) true (fun _ _ => none)
          ⟨("p"), ("IMG"), ("image/png"), [⟨("A"), ("B"), ("C")⟩], 1⟩
        ≠ DownloadOutcome.merged r fn := by
  have h1 : handleDownload (fun _ _ => 0) true (fun _ _ => none)
      ⟨("p"), ("IMG"), ("image/png"), [⟨("A"), ("B"), ("C")⟩], 1⟩
      = DownloadOutcome.raw (("data:image/png;base64,IMG"))
          (("genius-post-p.png")) := by
    decide
  refine ⟨h1, fun r fn hc => ?_⟩
  rw [h1] at hc
  exact DownloadOutcome.noConfusion hc

/-- C9: a `compose` call is a pure function of its inputs and measurement
environment: it leaves any ambient program state unchanged, and a second
call with identical inputs (run after the first) produces an identical
display list, hence a pixel-identical surface under the same rasterizer. -/
theorem compose_stateless_deterministic {S : Type} (σ : S) (env : MeasureEnv)
    (ctxOk : Bool) (decode : String → String → Option (ℚ × ℚ))
    (img mime : String) (t : StructuredText) :
    (composeCall σ env ctxOk decode img mime t).1
      = (composeCall (composeCall σ env ctxOk decode img mime t).2
          env ctxOk decode img mime t).1 ∧
    (composeCall σ env ctxOk decode img mime t).2 = σ :=
  ⟨rfl, rfl⟩

/-- C10 (amended): `handleSave` re-decodes the original data URL at save
time; on decode failure it produces neither bytes nor an error and leaves
the editor state untouched (the session stays open). The editor's open path
behaves the same way (it attaches no error handler either); only `compose`
(`mergeTextAndImage`) is fail-fast on decode failure. -/
theorem handleSave_silent_on_decode_failure (decode : String → Option (ℚ × ℚ))
    (s : EditorState) (env : MeasureEnv)
    (decode2 : String → String → Option (ℚ × ℚ))
    (innerW innerH : ℚ) (url img mime : String) (t : StructuredText)
    (hs : decode s.imageDataUrl = none) (ho : decode url = none)
    (hc2 : decode2 mime img = none) :
    handleSave decode s = (SaveOutcome.silent, s) ∧
    (∀ out : FlatImage, (handleSave decode s).1 ≠ SaveOutcome.saved out) ∧
    (handleSave decode s).1 ≠ SaveOutcome.failed ∧
    comicEditorOpen decode innerW innerH url = OpenOutcome.silent ∧
    mergeTextAndImage env true decode2 img mime t
      = ComposeResult.error ComposeError.decodeError := by
  have h1 : handleSave decode s = (SaveOutcome.silent, s) := by
    simp [handleSave, hs]
  refine ⟨h1, ?_, ?_, by simp [comicEditorOpen, ho], by simp [mergeTextAndImage, hc2]⟩
  · intro out hcon
    rw [h1] at hcon
    exact SaveOutcome.noConfusion hcon
  · intro hcon
    rw [h1] at hcon
    exact SaveOutcome.noConfusion hcon

/-- Witness for C10's amended statement at an always-failing decoder. -/
theorem handleSave_silent_witness :
    handleSave (fun _ => none) (openInitState 1000 800 500 400 ("bg"))
      = (SaveOutcome.silent, openInitState 1000 800 500 400 ("bg")) :=
  (handleSave_silent_on_decode_failure (fun _ => none)
      (openInitState 1000 800 500 400 ("bg")) (fun _ _ => 0) (fun _ _ => none)
      1000 800 ("u") ("i") ("m") ⟨("a"), ("b"), ("c")⟩ rfl rfl rfl).1

/-- C10 counterexample: the claim's contrast "unlike open" is false — the
editor's open path surfaces nothing on a failing decode (no session, no
error), exactly like save. -/
theorem open_not_failFast_counterexample :
    comicEditorOpen (fun _ => none) 1000 800 ("bg") = OpenOutcome.silent ∧
    (∀ s : EditorState,
        comicEditorOpen (fun _ => none) 1000 800 ("bg") ≠ OpenOutcome.opened s) ∧
    comicEditorOpen (fun _ => none) 1000 800 ("bg") ≠ OpenOutcome.failed := by
  refine ⟨rfl, ?_, ?_⟩
  · intro s hc
    simp [comicEditorOpen] at hc
  · intro hc
    simp [comicEditorOpen] at hc

end ContentStudio
